import Mathlib

/-!
Verification of the pose-adjusted face-matching core of the
`face_recognition_app` backend.

The development shallowly embeds the original-logic parts of the backend:

* the length-prefixed serialization of multi-angle embedding lists
  (`backend/services/face_recognition_service.py`,
  `encode_multiple_to_bytes` / `decode_multiple_from_bytes`);
* the two pose-adjusted comparison routines
  (`FaceRecognitionService.compare_faces` and `FaceService.compare_faces`);
* the multi-angle encoders
  (`FaceRecognitionService.encode_face_multi_angle` and
  `FaceService.generate_multi_angle_encodings`);
* the best-match scan of the recognition endpoint
  (`backend/src/api/recognition.py`, `recognize_face`);
* the pose gates of the registration endpoints
  (`backend/routes/registration.py` and `backend/src/api/registration.py`).

Modelling conventions: a `float64` numpy vector is represented by its raw
byte buffer (`List Nat`, one entry per byte), so byte-for-byte round-trip
statements are literal equalities; real arithmetic on distances, tolerances
and pose angles is carried out in `ℚ`; calls into the external
`face_recognition` / OpenCV / PIL libraries are opaque parameters collected
in an operations record; Python exceptions raised by an external call are
modelled with `Except` / `Option` results.
-/

namespace FaceRecognitionService

/-- Constant `JITTER_COUNT = 3` of `face_recognition_service.py`. -/
def JITTER_COUNT : Nat := 3

/-- Constant `MULTI_ANGLE_JITTER = 5` of `face_recognition_service.py`. -/
def MULTI_ANGLE_JITTER : Nat := 5

/-- Constant `POSE_TOLERANCE_ADJUSTMENT = 0.1` of `face_recognition_service.py`. -/
def POSE_TOLERANCE_ADJUSTMENT : ℚ := 1 / 10

/-- Model of Python `n.to_bytes(4, byteorder='big')`: the four big-endian
base-256 digits of `n`.  The Python call raises `OverflowError` for
`n ≥ 2^32`; the model is used (and faithful) only below that bound, which
the round-trip theorems assume. -/
def toBytesBE4 (n : Nat) : List Nat :=
  [n / 16777216 % 256, n / 65536 % 256, n / 256 % 256, n % 256]

/-- Model of Python `int.from_bytes(bs, byteorder='big')` for a byte list of
any length (a slice shorter than 4 bytes is handled the same way). -/
def fromBytesBE (bs : List Nat) : Nat :=
  bs.foldl (fun acc b => acc * 256 + b) 0

/-- Model of `np.frombuffer(buf, dtype=np.float64)`: succeeds exactly when
the buffer size is a multiple of the 8-byte element size (otherwise numpy
raises `ValueError`); the resulting vector is represented by the very same
byte buffer. -/
def np_frombuffer_float64 (bs : List Nat) : Option (List Nat) :=
  if bs.length % 8 = 0 then some bs else none

/-- Model of `FaceRecognitionService.encode_multiple_to_bytes`: `None` for a `None`
or empty input list, otherwise the concatenation, per encoding, of the
4-byte big-endian length prefix followed by the encoding's raw bytes. -/
def encode_multiple_to_bytes (face_encodings : Option (List (List Nat))) :
    Option (List Nat) :=
  match face_encodings with
  | none => none
  | some [] => none
  | some encs =>
      some (encs.foldl (fun all_bytes enc =>
        all_bytes ++ (toBytesBE4 enc.length ++ enc)) [])

/-- Loop body of `FaceRecognitionService.decode_multiple_from_bytes`
(`while offset < len(buf)`), phrased on the un-consumed suffix of the
buffer: read a 4-byte big-endian length prefix, slice that many bytes,
rebuild the vector with `np.frombuffer` (which raises `ValueError` on a
slice whose size is not a multiple of 8), and continue after the slice. -/
def decode_multiple_loop (bs : List Nat) : Except String (List (List Nat)) :=
  if h : bs = [] then
    .ok []
  else
    let length := fromBytesBE (bs.take 4)
    let rest := bs.drop 4
    match np_frombuffer_float64 (rest.take length) with
    | none => .error "ValueError: buffer size must be a multiple of element size"
    | some enc =>
        match decode_multiple_loop (rest.drop length) with
        | .ok encs => .ok (enc :: encs)
        | .error e => .error e
termination_by bs.length
decreasing_by
  simp only [List.length_drop]
  have hb : bs.length ≠ 0 := fun hz => h (List.length_eq_zero.mp hz)
  omega

/-- Model of `FaceRecognitionService.decode_multiple_from_bytes`: `None` maps to
`None`, otherwise the prefix-length scan of the buffer, which can raise
(`.error`) through `np.frombuffer`. -/
def decode_multiple_from_bytes (multi_encodings_bytes : Option (List Nat)) :
    Except String (Option (List (List Nat))) :=
  match multi_encodings_bytes with
  | none => .ok none
  | some bs => (decode_multiple_loop bs).map some

/-- Fuel-indexed variant of `decode_multiple_loop`, counting loop
iterations: `none` means the iteration budget was exhausted before the scan
reached the end of the buffer.  Used to state that the loop terminates
within `length + 1` iterations because each iteration consumes at least the
4-byte prefix. -/
def decode_loop_fuel (fuel : Nat) (bs : List Nat) :
    Option (Except String (List (List Nat))) :=
  match fuel with
  | 0 => none
  | fuel + 1 =>
      if bs = [] then
        some (.ok [])
      else
        let length := fromBytesBE (bs.take 4)
        let rest := bs.drop 4
        match np_frombuffer_float64 (rest.take length) with
        | none => some (.error "ValueError: buffer size must be a multiple of element size")
        | some enc =>
            match decode_loop_fuel fuel (rest.drop length) with
            | some (.ok encs) => some (.ok (enc :: encs))
            | some (.error e) => some (.error e)
            | none => none

end FaceRecognitionService

namespace FaceRecognitionService

/-- A 4-byte big-endian length prefix decodes back to the length it was
built from, as long as the length fits the 4 bytes (`n < 2^32`, which is
what Python's `to_bytes(4, ...)` enforces by raising otherwise). -/
theorem fromBytesBE_toBytesBE4 (n : Nat) (h : n < 4294967296) :
    fromBytesBE (toBytesBE4 n) = n := by
  simp only [toBytesBE4, fromBytesBE, List.foldl]
  omega

/-- The encoder's accumulator loop is the flattening of the per-encoding
frames appended after the initial accumulator. -/
theorem encode_foldl_eq_flatten (encs : List (List Nat)) (acc : List Nat) :
    encs.foldl (fun all_bytes enc => all_bytes ++ (toBytesBE4 enc.length ++ enc)) acc
      = acc ++ (encs.map (fun enc => toBytesBE4 enc.length ++ enc)).flatten := by
  induction encs generalizing acc with
  | nil => simp
  | cons e es ih => simp [List.foldl_cons, ih]

/-- Decoding the concatenation of well-formed frames recovers exactly the
framed encodings: each encoding's byte length must fit in the 4-byte prefix
and be a multiple of the 8-byte `float64` element size. -/
theorem decode_loop_frames (encs : List (List Nat))
    (h : ∀ e ∈ encs, e.length % 8 = 0 ∧ e.length < 4294967296) :
    decode_multiple_loop ((encs.map (fun enc => toBytesBE4 enc.length ++ enc)).flatten)
      = .ok encs := by
  induction encs with
  | nil => rw [decode_multiple_loop]; rfl
  | cons e es ih =>
      obtain ⟨h8, h32⟩ := h e (List.mem_cons_self e es)
      have hrest := fun x hx => h x (List.mem_cons_of_mem e hx)
      rw [decode_multiple_loop]
      have hne : ((List.cons e es).map (fun enc => toBytesBE4 enc.length ++ enc)).flatten ≠ [] := by
        simp [toBytesBE4]
      rw [dif_neg hne]
      have hshape :
          ((List.cons e es).map (fun enc => toBytesBE4 enc.length ++ enc)).flatten
            = toBytesBE4 e.length ++ (e ++ (es.map (fun enc => toBytesBE4 enc.length ++ enc)).flatten) := by
        simp
      rw [hshape]
      have htake4 : (toBytesBE4 e.length ++ (e ++ (es.map (fun enc => toBytesBE4 enc.length ++ enc)).flatten)).take 4
          = toBytesBE4 e.length := List.take_left' (by simp [toBytesBE4])
      have hdrop4 : (toBytesBE4 e.length ++ (e ++ (es.map (fun enc => toBytesBE4 enc.length ++ enc)).flatten)).drop 4
          = e ++ (es.map (fun enc => toBytesBE4 enc.length ++ enc)).flatten :=
        List.drop_left' (by simp [toBytesBE4])
      simp only [htake4, hdrop4, fromBytesBE_toBytesBE4 e.length h32]
      have htake : (e ++ (es.map (fun enc => toBytesBE4 enc.length ++ enc)).flatten).take e.length = e :=
        List.take_left _ _
      have hdrop : (e ++ (es.map (fun enc => toBytesBE4 enc.length ++ enc)).flatten).drop e.length
          = (es.map (fun enc => toBytesBE4 enc.length ++ enc)).flatten :=
        List.drop_left _ _
      simp only [htake, hdrop, np_frombuffer_float64, if_pos h8, ih hrest]

end FaceRecognitionService

/-- C1.  Round-trip of the multi-angle blob format: for every non-empty
list of embedding vectors whose byte length is a multiple of the 8-byte
`float64` element size and fits the 4-byte big-endian length prefix (in
particular for the configured 128-component vectors of 1024 bytes each),
`decode_multiple_from_bytes (encode_multiple_to_bytes encs)` yields exactly
the same number of vectors, byte-for-byte identical to the input. -/
theorem c1_multi_angle_blob_roundtrip (encs : List (List Nat))
    (hne : encs ≠ [])
    (hlen : ∀ e ∈ encs, e.length % 8 = 0 ∧ e.length < 4294967296) :
    FaceRecognitionService.decode_multiple_from_bytes
        (FaceRecognitionService.encode_multiple_to_bytes (some encs))
      = .ok (some encs) := by
  match encs, hne with
  | e :: es, _ =>
      have henc : FaceRecognitionService.encode_multiple_to_bytes (some (e :: es))
          = some (((e :: es).map (fun enc => FaceRecognitionService.toBytesBE4 enc.length ++ enc)).flatten) := by
        simp only [FaceRecognitionService.encode_multiple_to_bytes]
        rw [FaceRecognitionService.encode_foldl_eq_flatten]
        simp
      rw [henc]
      simp only [FaceRecognitionService.decode_multiple_from_bytes,
        FaceRecognitionService.decode_loop_frames (e :: es) hlen, Except.map]

/-- Witness for C1 at a concrete input: a single 8-byte vector round-trips. -/
theorem c1_multi_angle_blob_roundtrip_witness :
    FaceRecognitionService.decode_multiple_from_bytes
        (FaceRecognitionService.encode_multiple_to_bytes (some [[9, 8, 7, 6, 5, 4, 3, 2]]))
      = .ok (some [[9, 8, 7, 6, 5, 4, 3, 2]]) :=
  c1_multi_angle_blob_roundtrip [[9, 8, 7, 6, 5, 4, 3, 2]] (by decide) (by decide)

namespace FaceRecognitionService

/-- The scan loop finishes within `length bs` iterations: each iteration
consumes at least the 4-byte length prefix (and at least one byte on a
shorter final fragment), so a fuel budget beyond the buffer length is never
exhausted and the fuel-indexed loop agrees with the loop itself. -/
theorem decode_loop_fuel_spec (fuel : Nat) :
    ∀ bs : List Nat, bs.length < fuel →
      decode_loop_fuel fuel bs = some (decode_multiple_loop bs) := by
  induction fuel with
  | zero => intro bs h; exact absurd h (Nat.not_lt_zero _)
  | succ fuel ih =>
      intro bs h
      by_cases hbs : bs = []
      · subst hbs
        rw [decode_multiple_loop]
        rfl
      · rw [decode_loop_fuel, decode_multiple_loop, dif_neg hbs, if_neg hbs]
        have hlen : 0 < bs.length := List.length_pos.mpr hbs
        have hr : ((bs.drop 4).drop (fromBytesBE (bs.take 4))).length < fuel := by
          simp only [List.length_drop]
          omega
        cases hnp : np_frombuffer_float64 ((bs.drop 4).take (fromBytesBE (bs.take 4))) with
        | none => simp [hnp]
        | some enc =>
            simp only [hnp, ih _ hr]
            cases decode_multiple_loop ((bs.drop 4).drop (fromBytesBE (bs.take 4))) <;> rfl

/-- When the scan returns a list, that list has at most `⌈length/4⌉`
entries: every loop iteration contributes one decoded vector and advances
the offset by at least the 4 bytes of the length prefix (or to the end of
the buffer). -/
theorem decode_loop_count (n : Nat) :
    ∀ bs : List Nat, bs.length ≤ n → ∀ encs,
      decode_multiple_loop bs = .ok encs → encs.length ≤ (bs.length + 3) / 4 := by
  induction n with
  | zero =>
      intro bs hn encs h
      have hbs : bs = [] := List.length_eq_zero.mp (Nat.le_zero.mp hn)
      subst hbs
      rw [decode_multiple_loop] at h
      simp at h
      subst h
      simp
  | succ n ih =>
      intro bs hn encs h
      by_cases hbs : bs = []
      · subst hbs
        rw [decode_multiple_loop] at h
        simp at h
        subst h
        simp
      · rw [decode_multiple_loop, dif_neg hbs] at h
        have hlen : 0 < bs.length := List.length_pos.mpr hbs
        cases hnp : np_frombuffer_float64 ((bs.drop 4).take (fromBytesBE (bs.take 4))) with
        | none =>
            simp only [hnp] at h
            exact Except.noConfusion h
        | some enc =>
            cases hrec : decode_multiple_loop ((bs.drop 4).drop (fromBytesBE (bs.take 4))) with
            | error e =>
                simp only [hnp, hrec] at h
                exact Except.noConfusion h
            | ok es =>
                simp only [hnp, hrec, Except.ok.injEq] at h
                subst h
                have hrlen : ((bs.drop 4).drop (fromBytesBE (bs.take 4))).length ≤ n := by
                  simp only [List.length_drop]
                  omega
                have hes := ih _ hrlen es hrec
                simp only [List.length_drop] at hes
                simp only [List.length_cons]
                omega

end FaceRecognitionService

/-- C9 counterexample.  The claim says the decoder returns a list for
every non-`None` byte string without raising; on the 5-byte buffer
`[0,0,0,1,255]` the length prefix announces a 1-byte vector, and
`np.frombuffer` raises `ValueError` because 1 byte is not a multiple of the
8-byte `float64` element size. -/
theorem c9_decode_raises_on_misaligned_chunk :
    FaceRecognitionService.decode_multiple_from_bytes (some [0, 0, 0, 1, 255])
      = .error "ValueError: buffer size must be a multiple of element size" := by
  have h : FaceRecognitionService.decode_multiple_loop [0, 0, 0, 1, 255]
      = .error "ValueError: buffer size must be a multiple of element size" := by
    rw [FaceRecognitionService.decode_multiple_loop]
    simp [FaceRecognitionService.fromBytesBE, FaceRecognitionService.np_frombuffer_float64]
  simp only [FaceRecognitionService.decode_multiple_from_bytes, h, Except.map]

/-- C9 (amended).  `decode_multiple_from_bytes` terminates on every
non-`None` byte string — each loop iteration advances the read offset by at
least the 4-byte prefix, so a fuel budget beyond the buffer length is never
exhausted, and any returned list has at most `⌈length/4⌉` entries — but it
does not always return a list: `np.frombuffer` raises `ValueError` on a
sliced chunk whose byte length is not a multiple of 8. -/
theorem c9_amended_decode_terminates (bs : List Nat) :
    (∀ fuel, bs.length < fuel →
        FaceRecognitionService.decode_loop_fuel fuel bs
          = some (FaceRecognitionService.decode_multiple_loop bs)) ∧
    (∀ encs, FaceRecognitionService.decode_multiple_loop bs = .ok encs →
        encs.length ≤ (bs.length + 3) / 4) :=
  ⟨fun fuel h => FaceRecognitionService.decode_loop_fuel_spec fuel bs h,
   fun encs h => FaceRecognitionService.decode_loop_count bs.length bs le_rfl encs h⟩

/-- Witness for the amended C9 at a concrete buffer: fuel `6` suffices for
the 5-byte buffer, and the singleton decode of `[0,0,0,0]` respects the
`⌈length/4⌉` bound. -/
theorem c9_amended_decode_terminates_witness :
    FaceRecognitionService.decode_loop_fuel 6 [0, 0, 0, 1, 255]
        = some (FaceRecognitionService.decode_multiple_loop [0, 0, 0, 1, 255]) ∧
    ([[]] : List (List Nat)).length ≤ (([0, 0, 0, 0] : List Nat).length + 3) / 4 :=
  ⟨(c9_amended_decode_terminates [0, 0, 0, 1, 255]).1 6 (by decide),
   (c9_amended_decode_terminates [0, 0, 0, 0]).2 [[]] (by
      rw [FaceRecognitionService.decode_multiple_loop]
      simp [FaceRecognitionService.fromBytesBE, FaceRecognitionService.np_frombuffer_float64]
      rw [FaceRecognitionService.decode_multiple_loop]
      rfl)⟩

/-- C10.  The empty sequence of embeddings is not representable in the
multi-angle blob format: the encoder returns `None` for a `None` or empty
input (never an empty buffer), the decoder maps `None` back to `None`,
only the empty byte string decodes to the empty list, and therefore
`decode (encode [])` is `None` rather than `[]`. -/
theorem c10_empty_not_representable :
    FaceRecognitionService.encode_multiple_to_bytes none = none ∧
    FaceRecognitionService.encode_multiple_to_bytes (some []) = none ∧
    FaceRecognitionService.decode_multiple_from_bytes none = .ok none ∧
    FaceRecognitionService.decode_multiple_from_bytes (some []) = .ok (some []) ∧
    (∀ bs : List Nat, bs ≠ [] →
        FaceRecognitionService.decode_multiple_from_bytes (some bs) ≠ .ok (some [])) ∧
    FaceRecognitionService.decode_multiple_from_bytes
        (FaceRecognitionService.encode_multiple_to_bytes (some [])) = .ok none := by
  refine ⟨rfl, rfl, rfl, ?_, ?_, rfl⟩
  · simp only [FaceRecognitionService.decode_multiple_from_bytes]
    rw [FaceRecognitionService.decode_multiple_loop]
    rfl
  · intro bs hbs hcontra
    simp only [FaceRecognitionService.decode_multiple_from_bytes] at hcontra
    have hloop : FaceRecognitionService.decode_multiple_loop bs = .ok [] := by
      cases hl : FaceRecognitionService.decode_multiple_loop bs with
      | error e => rw [hl] at hcontra; exact Except.noConfusion hcontra
      | ok es =>
          rw [hl] at hcontra
          simp only [Except.map, Except.ok.injEq, Option.some.injEq] at hcontra
          subst hcontra
          rfl
    rw [FaceRecognitionService.decode_multiple_loop, dif_neg hbs] at hloop
    cases hnp : FaceRecognitionService.np_frombuffer_float64
        ((bs.drop 4).take (FaceRecognitionService.fromBytesBE (bs.take 4))) with
    | none =>
        simp only [hnp] at hloop
        exact Except.noConfusion hloop
    | some enc =>
        cases hrec : FaceRecognitionService.decode_multiple_loop
            ((bs.drop 4).drop (FaceRecognitionService.fromBytesBE (bs.take 4))) with
        | error e =>
            simp only [hnp, hrec] at hloop
            exact Except.noConfusion hloop
        | ok es =>
            simp only [hnp, hrec, Except.ok.injEq] at hloop
            exact List.cons_ne_nil enc es hloop

/-- Witness for C10 at a concrete input: the 1-byte buffer `[0]` does not
decode to the empty list. -/
theorem c10_empty_not_representable_witness :
    FaceRecognitionService.decode_multiple_from_bytes (some [0]) ≠ .ok (some []) :=
  c10_empty_not_representable.2.2.2.2.1 [0] (by decide)

/-- Head pose in degrees, as produced by the pose estimators.  A pose
dictionary read with `pose.get('yaw', 0)` etc. is modelled by a record
whose absent entries are already the default `0`. -/
structure Pose where
  yaw : ℚ
  pitch : ℚ
  roll : ℚ
deriving DecidableEq

namespace FaceRecognitionService

/-- Model of `FaceRecognitionService.compare_faces` of
`backend/services/face_recognition_service.py` (default base tolerance
0.55).  The external `face_recognition.face_distance` call is the opaque
input `dist_result`; a raised exception anywhere inside the `try` block is
the `.error` case, caught to return `(False, 1.0, tolerance)`.  The pose
pair, when present, widens the tolerance by
`(|Δyaw| + |Δpitch|) / 90 * POSE_TOLERANCE_ADJUSTMENT`, capped at 0.65.
Returns `(match, distance, adjusted_tolerance)`. -/
def compare_faces (dist_result : Except Unit ℚ) (tolerance : ℚ)
    (poses : Option (Pose × Pose)) : Bool × ℚ × ℚ :=
  match dist_result with
  | .error _ => (false, 1, tolerance)
  | .ok distance =>
      let adjusted_tolerance :=
        match poses with
        | some (known, unknown) =>
            let yaw_diff := |known.yaw - unknown.yaw|
            let pitch_diff := |known.pitch - unknown.pitch|
            let pose_diff_factor := (yaw_diff + pitch_diff) / 90
            let pose_adjustment := pose_diff_factor * POSE_TOLERANCE_ADJUSTMENT
            min (tolerance + pose_adjustment) (13 / 20)
        | none => tolerance
      (decide (distance ≤ adjusted_tolerance), distance, adjusted_tolerance)

end FaceRecognitionService

namespace FaceService

/-- Config default `FACE_RECOGNITION_TOLERANCE = 0.6` of
`backend/src/config/config.py`, read into `FaceService.tolerance`. -/
def FACE_RECOGNITION_TOLERANCE : ℚ := 3 / 5

/-- Model of `FaceService.compare_faces` of `backend/src/services/face_service.py`.
`tolerance` stands for the instance field `self.tolerance`; the external
`face_recognition.face_distance` call is the opaque input `dist_result`,
whose `.error` case models a raised exception caught to return
`(False, 1.0, self.tolerance)`.  The pose pair, when present, widens the
tolerance by `(|Δyaw|/90 + |Δpitch|/90 + |Δroll|/90) / 6`, capped at 0.8.
Returns `(match, distance, adjusted_tolerance)`. -/
def compare_faces (tolerance : ℚ) (dist_result : Except Unit ℚ)
    (poses : Option (Pose × Pose)) : Bool × ℚ × ℚ :=
  match dist_result with
  | .error _ => (false, 1, tolerance)
  | .ok distance =>
      let adjusted_tolerance :=
        match poses with
        | some (known_pose, unknown_pose) =>
            let yaw_diff := |known_pose.yaw - unknown_pose.yaw|
            let pitch_diff := |known_pose.pitch - unknown_pose.pitch|
            let roll_diff := |known_pose.roll - unknown_pose.roll|
            let pose_adjustment := (yaw_diff / 90 + pitch_diff / 90 + roll_diff / 90) / 6
            min (4 / 5) (tolerance + pose_adjustment)
        | none => tolerance
      (decide (distance ≤ adjusted_tolerance), distance, adjusted_tolerance)

end FaceService

/-- C2.  Both `compare_faces` implementations report a match exactly when
the computed distance is at most the adjusted tolerance they return: the
boundary `distance = adjusted_tolerance` is a match, and any larger
distance is not. -/
theorem c2_match_iff_distance_le_adjusted_tolerance
    (d tolerance : ℚ) (poses : Option (Pose × Pose)) :
    ((FaceRecognitionService.compare_faces (.ok d) tolerance poses).1 = true ↔
        d ≤ (FaceRecognitionService.compare_faces (.ok d) tolerance poses).2.2) ∧
    ((FaceService.compare_faces tolerance (.ok d) poses).1 = true ↔
        d ≤ (FaceService.compare_faces tolerance (.ok d) poses).2.2) := by
  constructor
  · simp [FaceRecognitionService.compare_faces]
  · simp [FaceService.compare_faces]

/-- C3.  For a fixed base tolerance and distance input, the adjusted
tolerance of both `compare_faces` implementations is monotonically
non-decreasing in the per-axis pose deltas, and it never exceeds the
configured cap (0.65 for `FaceRecognitionService` with its 0.55-grade base
tolerances, 0.8 for `FaceService` with its 0.6 base tolerance) as long as
the base tolerance itself is within the cap. -/
theorem c3_adjusted_tolerance_monotone_and_capped :
    (∀ (dr : Except Unit ℚ) (tolerance : ℚ) (k₁ u₁ k₂ u₂ : Pose),
        |k₁.yaw - u₁.yaw| ≤ |k₂.yaw - u₂.yaw| →
        |k₁.pitch - u₁.pitch| ≤ |k₂.pitch - u₂.pitch| →
        (FaceRecognitionService.compare_faces dr tolerance (some (k₁, u₁))).2.2 ≤
          (FaceRecognitionService.compare_faces dr tolerance (some (k₂, u₂))).2.2) ∧
    (∀ (dr : Except Unit ℚ) (tolerance : ℚ) (poses : Option (Pose × Pose)),
        tolerance ≤ 13 / 20 →
        (FaceRecognitionService.compare_faces dr tolerance poses).2.2 ≤ 13 / 20) ∧
    (∀ (tolerance : ℚ) (dr : Except Unit ℚ) (k₁ u₁ k₂ u₂ : Pose),
        |k₁.yaw - u₁.yaw| ≤ |k₂.yaw - u₂.yaw| →
        |k₁.pitch - u₁.pitch| ≤ |k₂.pitch - u₂.pitch| →
        |k₁.roll - u₁.roll| ≤ |k₂.roll - u₂.roll| →
        (FaceService.compare_faces tolerance dr (some (k₁, u₁))).2.2 ≤
          (FaceService.compare_faces tolerance dr (some (k₂, u₂))).2.2) ∧
    (∀ (tolerance : ℚ) (dr : Except Unit ℚ) (poses : Option (Pose × Pose)),
        tolerance ≤ 4 / 5 →
        (FaceService.compare_faces tolerance dr poses).2.2 ≤ 4 / 5) := by
  refine ⟨?_, ?_, ?_, ?_⟩
  · intro dr tolerance k₁ u₁ k₂ u₂ hy hp
    cases dr with
    | error e => simp [FaceRecognitionService.compare_faces]
    | ok d =>
        simp only [FaceRecognitionService.compare_faces,
          FaceRecognitionService.POSE_TOLERANCE_ADJUSTMENT]
        exact min_le_min (by linarith) le_rfl
  · intro dr tolerance poses htol
    cases dr with
    | error e => simpa [FaceRecognitionService.compare_faces] using htol
    | ok d =>
        cases poses with
        | none => simpa [FaceRecognitionService.compare_faces] using htol
        | some ku =>
            obtain ⟨k, u⟩ := ku
            simp only [FaceRecognitionService.compare_faces]
            exact min_le_right _ _
  · intro tolerance dr k₁ u₁ k₂ u₂ hy hp hr
    cases dr with
    | error e => simp [FaceService.compare_faces]
    | ok d =>
        simp only [FaceService.compare_faces]
        exact min_le_min le_rfl (by linarith)
  · intro tolerance dr poses htol
    cases dr with
    | error e => simpa [FaceService.compare_faces] using htol
    | ok d =>
        cases poses with
        | none => simpa [FaceService.compare_faces] using htol
        | some ku =>
            obtain ⟨k, u⟩ := ku
            simp only [FaceService.compare_faces]
            exact min_le_left _ _

/-- Witness for C3 at concrete inputs: a frontal pose pair against a
30-degree-yaw pair, with the configured base tolerances 0.55 and 0.6. -/
theorem c3_adjusted_tolerance_monotone_and_capped_witness :
    ((FaceRecognitionService.compare_faces (.ok (1/2)) (11/20)
          (some (⟨0, 0, 0⟩, ⟨0, 0, 0⟩))).2.2 ≤
        (FaceRecognitionService.compare_faces (.ok (1/2)) (11/20)
          (some (⟨30, 0, 0⟩, ⟨0, 0, 0⟩))).2.2) ∧
    ((FaceRecognitionService.compare_faces (.ok (1/2)) (11/20)
          (some (⟨30, 0, 0⟩, ⟨0, 0, 0⟩))).2.2 ≤ 13 / 20) ∧
    ((FaceService.compare_faces (3/5) (.ok (1/2))
          (some (⟨0, 0, 0⟩, ⟨0, 0, 0⟩))).2.2 ≤
        (FaceService.compare_faces (3/5) (.ok (1/2))
          (some (⟨30, 0, 0⟩, ⟨0, 0, 0⟩))).2.2) ∧
    ((FaceService.compare_faces (3/5) (.ok (1/2))
          (some (⟨30, 0, 0⟩, ⟨0, 0, 0⟩))).2.2 ≤ 4 / 5) :=
  ⟨c3_adjusted_tolerance_monotone_and_capped.1 _ _ _ _ _ _ (by simp) (by simp),
   c3_adjusted_tolerance_monotone_and_capped.2.1 _ _ _ (by norm_num),
   c3_adjusted_tolerance_monotone_and_capped.2.2.1 _ _ _ _ _ _ (by simp) (by simp) (by simp),
   c3_adjusted_tolerance_monotone_and_capped.2.2.2 _ _ _ (by norm_num)⟩

/-- Follows the spec's words for the C4 tolerance-adjustment formula:
`pose_difference` is the sum of the per-axis absolute deltas, divided by 90
per axis and then divided by the number of axes considered, and the
adjusted tolerance is `min(base + pose_difference * 0.1, cap)`. -/
def claim_pose_difference (deltas : List ℚ) : ℚ :=
  (deltas.map (fun delta => delta / 90)).sum / deltas.length

/-- Follows the spec's words for C4, see `claim_pose_difference`. -/
def claim_adjusted_tolerance (base_tolerance cap : ℚ) (deltas : List ℚ) : ℚ :=
  min (base_tolerance + claim_pose_difference deltas * (1 / 10)) cap

/-- C4 counterexample.  At known pose `yaw = 45` against a frontal unknown
pose, neither implementation computes the claimed formula: the first
divides the delta sum by 90 only (no division by the axis count 2, giving
0.6 instead of the claimed 0.575), the second divides the per-axis sum by 6
rather than by the axis count 3 and applies no 0.1 factor (giving 41/60
instead of the claimed 37/60). -/
theorem c4_per_axis_normalization_refuted :
    (FaceRecognitionService.compare_faces (.ok (1/4)) (11/20)
        (some (⟨45, 0, 0⟩, ⟨0, 0, 0⟩))).2.2 ≠
      claim_adjusted_tolerance (11/20) (13/20) [|(45:ℚ) - 0|, |(0:ℚ) - 0|] ∧
    (FaceService.compare_faces (3/5) (.ok (1/4))
        (some (⟨45, 0, 0⟩, ⟨0, 0, 0⟩))).2.2 ≠
      claim_adjusted_tolerance (3/5) (4/5) [|(45:ℚ) - 0|, |(0:ℚ) - 0|, |(0:ℚ) - 0|] := by
  have h45 : |(45:ℚ) - 0| = 45 := by norm_num
  have h0 : |(0:ℚ) - 0| = 0 := by norm_num
  constructor
  · simp only [FaceRecognitionService.compare_faces, claim_adjusted_tolerance,
      claim_pose_difference, FaceRecognitionService.POSE_TOLERANCE_ADJUSTMENT, h45, h0]
    norm_num
  · simp only [FaceService.compare_faces, claim_adjusted_tolerance,
      claim_pose_difference, h45, h0]
    norm_num

/-- C4 (amended).  What the two implementations actually compute when both
poses are present: `FaceRecognitionService.compare_faces` uses
`adjusted = min(tolerance + (|Δyaw|/90 + |Δpitch|/90) * 0.1, 0.65)` — the
per-axis deltas are each normalized by 90 but the result is not divided by
the number of axes; `FaceService.compare_faces` uses
`adjusted = min(tolerance + (|Δyaw|/90 + |Δpitch|/90 + |Δroll|/90) * (1/6), 0.8)`
— dividing by 6 rather than by the three axes considered, with no
additional 0.1 factor. -/
theorem c4_amended_adjusted_tolerance_formula (tolerance d : ℚ)
    (known unknown : Pose) :
    (FaceRecognitionService.compare_faces (.ok d) tolerance (some (known, unknown))).2.2
      = min (tolerance + (|known.yaw - unknown.yaw| / 90 + |known.pitch - unknown.pitch| / 90) * (1/10)) (13/20) ∧
    (FaceService.compare_faces tolerance (.ok d) (some (known, unknown))).2.2
      = min (tolerance + (|known.yaw - unknown.yaw| / 90 + |known.pitch - unknown.pitch| / 90 + |known.roll - unknown.roll| / 90) * (1/6)) (4/5) := by
  constructor
  · simp only [FaceRecognitionService.compare_faces,
      FaceRecognitionService.POSE_TOLERANCE_ADJUSTMENT]
    congr 1
    ring
  · simp only [FaceService.compare_faces]
    rw [min_comm]
    congr 1
    ring

/-- C7.  An error raised during a single comparison (distance computation
or tolerance adjustment) is caught by both `compare_faces` implementations,
which then return exactly `(False, 1.0, base_tolerance)` for that pairing
instead of propagating the exception to the candidate scan. -/
theorem c7_comparison_error_gives_no_match (tolerance : ℚ)
    (poses : Option (Pose × Pose)) :
    FaceRecognitionService.compare_faces (.error ()) tolerance poses
        = (false, 1, tolerance) ∧
    FaceService.compare_faces tolerance (.error ()) poses
        = (false, 1, tolerance) :=
  ⟨rfl, rfl⟩

/-- One stored identity row as seen by the candidate loop of
`recognize_face` (`backend/src/api/recognition.py`): a row of
`get_all_face_encodings` with a non-empty `face_encoding`.  `distances`
holds the outcome of the external `face_recognition.face_distance` call for
each compared encoding — the decoded multi-angle encodings when present,
otherwise the single primary encoding — and `poses` is the known/unknown
pose pair when both the stored `face_analysis` and the query analysis carry
a pose.  Profile fields other than the id are copied unchanged into the
best-match record and are omitted from the model. -/
structure StoredFace where
  user_id : Nat
  distances : List (Except Unit ℚ)
  poses : Option (Pose × Pose)

/-- The `best_match` record tracked by `recognize_face`, reduced to the
fields the scan computes: the winning identity, `confidence = 1 - distance`
and the adjusted tolerance of the winning comparison. -/
structure BestMatch where
  user_id : Nat
  confidence : ℚ
  adjusted_tolerance : ℚ
deriving DecidableEq

/-- Body of the per-encoding comparison loop of `recognize_face`: run
`FaceService.compare_faces`, count the comparison, and take over as
`best_match` exactly when the comparison matched and its distance is
strictly below the lowest distance seen so far (initially 1.0).  The
accumulator is `(best_match, lowest_distance, total_comparisons)`. -/
def scan_step (tolerance : ℚ) (user_id : Nat) (poses : Option (Pose × Pose))
    (acc : Option BestMatch × ℚ × Nat) (dr : Except Unit ℚ) :
    Option BestMatch × ℚ × Nat :=
  let r := FaceService.compare_faces tolerance dr poses
  if r.1 = true ∧ r.2.1 < acc.2.1 then
    (some ⟨user_id, 1 - r.2.1, r.2.2⟩, r.2.1, acc.2.2 + 1)
  else
    (acc.1, acc.2.1, acc.2.2 + 1)

/-- Inner loop of `recognize_face` over the comparison set of one stored
identity. -/
def scan_distances (tolerance : ℚ) (f : StoredFace)
    (acc : Option BestMatch × ℚ × Nat) : Option BestMatch × ℚ × Nat :=
  f.distances.foldl (scan_step tolerance f.user_id f.poses) acc

/-- The candidate scan of `recognize_face`: fold both loops over all stored
identities starting from `best_match = None`, `lowest_distance = 1.0` and
zero comparisons. -/
def recognize_scan (tolerance : ℚ) (faces : List StoredFace) :
    Option BestMatch × ℚ × Nat :=
  faces.foldl (fun acc f => scan_distances tolerance f acc) (none, (1 : ℚ), (0 : Nat))

/-- The matching comparison of one encoding, as a specification-side
(identity, distance) pair: present exactly when `compare_faces` reports a
match. -/
def match_entry (tolerance : ℚ) (poses : Option (Pose × Pose)) (user_id : Nat)
    (dr : Except Unit ℚ) : Option (Nat × ℚ) :=
  let r := FaceService.compare_faces tolerance dr poses
  if r.1 = true then some (user_id, r.2.1) else none

/-- All matching `(identity, distance)` pairs of the candidate scan, across
all identities and all their embedding variants, in scan order. -/
def matching_results (tolerance : ℚ) (faces : List StoredFace) : List (Nat × ℚ) :=
  faces.flatMap (fun f => f.distances.filterMap (match_entry tolerance f.poses f.user_id))

/-- Loop invariant of the candidate scan: before a match is found the
matching set is empty and `lowest_distance` is still 1.0; afterwards the
tracked best match attains the minimum distance over all matching pairs
seen so far, with `confidence = 1 - lowest_distance`. -/
def ScanInv (ms : List (Nat × ℚ)) (best : Option BestMatch) (lowest : ℚ) : Prop :=
  match best with
  | none => ms = [] ∧ lowest = 1
  | some b =>
      lowest < 1 ∧ b.confidence = 1 - lowest ∧ (b.user_id, lowest) ∈ ms ∧
        ∀ q ∈ ms, lowest ≤ q.2

/-- A matching comparison's distance is bounded by the larger of the base
tolerance and the 0.8 cap: the adjusted tolerance is either the base
tolerance (no poses) or capped at 0.8. -/
theorem compare_match_distance_le (tolerance : ℚ) (dr : Except Unit ℚ)
    (poses : Option (Pose × Pose))
    (h : (FaceService.compare_faces tolerance dr poses).1 = true) :
    (FaceService.compare_faces tolerance dr poses).2.1 ≤ max tolerance (4 / 5) := by
  cases dr with
  | error e => simp [FaceService.compare_faces] at h
  | ok d =>
      cases poses with
      | none =>
          simp only [FaceService.compare_faces, decide_eq_true_eq] at h ⊢
          exact le_trans h (le_max_left _ _)
      | some ku =>
          obtain ⟨k, u⟩ := ku
          simp only [FaceService.compare_faces, decide_eq_true_eq] at h ⊢
          exact le_trans h (le_trans (min_le_left _ _) (le_max_right _ _))

/-- One comparison step preserves the scan invariant, extending the
matching set by the comparison's match entry (if any). -/
theorem scan_step_inv (tolerance : ℚ) (htol : tolerance < 1) (user_id : Nat)
    (poses : Option (Pose × Pose)) (dr : Except Unit ℚ) (ms : List (Nat × ℚ))
    (best : Option BestMatch) (lowest : ℚ) (n : Nat)
    (hInv : ScanInv ms best lowest) :
    ScanInv (ms ++ (match_entry tolerance poses user_id dr).toList)
      (scan_step tolerance user_id poses (best, lowest, n) dr).1
      (scan_step tolerance user_id poses (best, lowest, n) dr).2.1 := by
  by_cases hm : (FaceService.compare_faces tolerance dr poses).1 = true
  · have hdle := compare_match_distance_le tolerance dr poses hm
    have hd1 : (FaceService.compare_faces tolerance dr poses).2.1 < 1 :=
      lt_of_le_of_lt hdle (max_lt htol (by norm_num))
    have hentry : match_entry tolerance poses user_id dr
        = some (user_id, (FaceService.compare_faces tolerance dr poses).2.1) := by
      simp [match_entry, hm]
    by_cases hlt : (FaceService.compare_faces tolerance dr poses).2.1 < lowest
    · have h1 : (scan_step tolerance user_id poses (best, lowest, n) dr).1
          = some ⟨user_id, 1 - (FaceService.compare_faces tolerance dr poses).2.1,
              (FaceService.compare_faces tolerance dr poses).2.2⟩ := by
        simp [scan_step, hm, hlt]
      have h2 : (scan_step tolerance user_id poses (best, lowest, n) dr).2.1
          = (FaceService.compare_faces tolerance dr poses).2.1 := by
        simp [scan_step, hm, hlt]
      rw [h1, h2, hentry]
      simp only [ScanInv, Option.toList_some]
      refine ⟨hd1, by trivial, ?_, ?_⟩
      · exact List.mem_append_right _ (List.mem_singleton_self _)
      · intro q hq
        rcases List.mem_append.mp hq with hql | hqr
        · cases best with
          | none =>
              obtain ⟨hms, _⟩ := hInv
              subst hms
              exact absurd hql (List.not_mem_nil q)
          | some b =>
              obtain ⟨_, _, _, hall⟩ := hInv
              exact le_trans (le_of_lt hlt) (hall q hql)
        · rw [List.mem_singleton.mp hqr]
    · have h1 : (scan_step tolerance user_id poses (best, lowest, n) dr).1 = best := by
        simp [scan_step, hlt]
      have h2 : (scan_step tolerance user_id poses (best, lowest, n) dr).2.1 = lowest := by
        simp [scan_step, hlt]
      rw [h1, h2, hentry]
      cases best with
      | none =>
          obtain ⟨hms, hl1⟩ := hInv
          exact absurd (hl1 ▸ hd1) hlt
      | some b =>
          obtain ⟨hlow, hconf, hmem, hall⟩ := hInv
          refine ⟨hlow, hconf, List.mem_append_left _ hmem, ?_⟩
          intro q hq
          rcases List.mem_append.mp hq with hql | hqr
          · exact hall q hql
          · rw [List.mem_singleton.mp hqr]
            exact le_of_not_lt hlt
  · have hentry : match_entry tolerance poses user_id dr = none := by
      simp [match_entry, hm]
    have h1 : (scan_step tolerance user_id poses (best, lowest, n) dr).1 = best := by
      simp [scan_step, hm]
    have h2 : (scan_step tolerance user_id poses (best, lowest, n) dr).2.1 = lowest := by
      simp [scan_step, hm]
    rw [h1, h2, hentry, Option.toList_none, List.append_nil]
    exact hInv

/-- The inner comparison loop over one identity's encodings preserves the
scan invariant, extending the matching set by that identity's matching
entries. -/
theorem scan_distances_fold_inv (tolerance : ℚ) (htol : tolerance < 1)
    (user_id : Nat) (poses : Option (Pose × Pose)) :
    ∀ (drs : List (Except Unit ℚ)) (ms : List (Nat × ℚ))
      (best : Option BestMatch) (lowest : ℚ) (n : Nat),
      ScanInv ms best lowest →
      ScanInv (ms ++ drs.filterMap (match_entry tolerance poses user_id))
        ((drs.foldl (scan_step tolerance user_id poses) (best, lowest, n)).1)
        ((drs.foldl (scan_step tolerance user_id poses) (best, lowest, n)).2.1) := by
  intro drs
  induction drs with
  | nil => intro ms best lowest n h; simpa using h
  | cons dr drs ih =>
      intro ms best lowest n h
      have hstep := scan_step_inv tolerance htol user_id poses dr ms best lowest n h
      rcases hsplit : scan_step tolerance user_id poses (best, lowest, n) dr with ⟨b2, l2, n2⟩
      rw [hsplit] at hstep
      have hrec := ih (ms ++ (match_entry tolerance poses user_id dr).toList) b2 l2 n2 hstep
      have hlist : (dr :: drs).filterMap (match_entry tolerance poses user_id)
          = (match_entry tolerance poses user_id dr).toList
              ++ drs.filterMap (match_entry tolerance poses user_id) := by
        cases hg : match_entry tolerance poses user_id dr <;>
          simp [List.filterMap_cons, hg]
      rw [List.foldl_cons, hsplit, hlist, ← List.append_assoc]
      exact hrec

/-- The outer loop over all stored identities preserves the scan
invariant, extending the matching set by all their matching entries. -/
theorem recognize_scan_fold_inv (tolerance : ℚ) (htol : tolerance < 1) :
    ∀ (faces : List StoredFace) (ms : List (Nat × ℚ))
      (best : Option BestMatch) (lowest : ℚ) (n : Nat),
      ScanInv ms best lowest →
      ScanInv (ms ++ matching_results tolerance faces)
        ((faces.foldl (fun acc f => scan_distances tolerance f acc) (best, lowest, n)).1)
        ((faces.foldl (fun acc f => scan_distances tolerance f acc) (best, lowest, n)).2.1) := by
  intro faces
  induction faces with
  | nil => intro ms best lowest n h; simpa [matching_results] using h
  | cons f fs ih =>
      intro ms best lowest n h
      have hstep := scan_distances_fold_inv tolerance htol f.user_id f.poses
        f.distances ms best lowest n h
      rcases hsplit : scan_distances tolerance f (best, lowest, n) with ⟨b2, l2, n2⟩
      have hsplit2 : f.distances.foldl (scan_step tolerance f.user_id f.poses) (best, lowest, n)
          = (b2, l2, n2) := hsplit
      rw [hsplit2] at hstep
      have hrec := ih (ms ++ f.distances.filterMap (match_entry tolerance f.poses f.user_id))
        b2 l2 n2 hstep
      have hlist : matching_results tolerance (f :: fs)
          = f.distances.filterMap (match_entry tolerance f.poses f.user_id)
              ++ matching_results tolerance fs := by
        simp [matching_results]
      rw [List.foldl_cons, hsplit, hlist, ← List.append_assoc]
      exact hrec

/-- The scan invariant holds for the full candidate scan. -/
theorem recognize_scan_inv (tolerance : ℚ) (htol : tolerance < 1)
    (faces : List StoredFace) :
    ScanInv (matching_results tolerance faces)
      ((recognize_scan tolerance faces).1)
      ((recognize_scan tolerance faces).2.1) := by
  have h := recognize_scan_fold_inv tolerance htol faces [] none 1 0 ⟨rfl, rfl⟩
  simpa [recognize_scan] using h

/-- C5.  With the configured base tolerance (any value below the sentinel
distance 1.0; the deployed value is 0.6), the recognition scan reports no
match exactly when no comparison matched, and otherwise its best match
carries an identity attaining the globally lowest distance across all
identities and all their embedding variants, with
`confidence = 1 - distance`.  In particular, for three stored identities at
distances 0.4, 0.2 and 0.5 with tolerance 0.6 it selects the identity at
distance 0.2 with confidence 0.8 (after 3 comparisons, lowest distance
0.2). -/
theorem c5_best_match_selection (tolerance : ℚ) (faces : List StoredFace)
    (htol : tolerance < 1) :
    ((recognize_scan tolerance faces).1 = none →
        matching_results tolerance faces = []) ∧
    (∀ b : BestMatch, (recognize_scan tolerance faces).1 = some b →
        ∃ d : ℚ, b.confidence = 1 - d ∧
          (b.user_id, d) ∈ matching_results tolerance faces ∧
          ∀ q ∈ matching_results tolerance faces, d ≤ q.2) ∧
    recognize_scan (3/5)
        [⟨1, [.ok (2/5)], none⟩, ⟨2, [.ok (1/5)], none⟩, ⟨3, [.ok (1/2)], none⟩]
      = (some ⟨2, 4/5, 3/5⟩, 1/5, 3) := by
  have hInv := recognize_scan_inv tolerance htol faces
  refine ⟨?_, ?_, ?_⟩
  · intro hnone
    rw [hnone] at hInv
    simp only [ScanInv] at hInv
    exact hInv.1
  · intro b hb
    rw [hb] at hInv
    simp only [ScanInv] at hInv
    obtain ⟨_, hconf, hmem, hall⟩ := hInv
    exact ⟨(recognize_scan tolerance faces).2.1, hconf, hmem, hall⟩
  · norm_num [recognize_scan, scan_distances, scan_step, FaceService.compare_faces,
      List.foldl_cons, List.foldl_nil]

/-- Witness for C5 at the concrete three-identity candidate set of the
claim: the selected best match (identity 2, confidence 0.8) attains the
minimum distance among all matching pairs. -/
theorem c5_best_match_selection_witness :
    ∃ d : ℚ, (BestMatch.mk 2 (4/5) (3/5)).confidence = 1 - d ∧
      ((BestMatch.mk 2 (4/5) (3/5)).user_id, d) ∈ matching_results (3/5)
        [⟨1, [.ok (2/5)], none⟩, ⟨2, [.ok (1/5)], none⟩, ⟨3, [.ok (1/2)], none⟩] ∧
      ∀ q ∈ matching_results (3/5)
        [⟨1, [.ok (2/5)], none⟩, ⟨2, [.ok (1/5)], none⟩, ⟨3, [.ok (1/2)], none⟩], d ≤ q.2 :=
  (c5_best_match_selection (3/5)
      [⟨1, [.ok (2/5)], none⟩, ⟨2, [.ok (1/5)], none⟩, ⟨3, [.ok (1/2)], none⟩]
      (by norm_num)).2.1 ⟨2, 4/5, 3/5⟩
    (congrArg Prod.fst ((c5_best_match_selection (3/5)
      [⟨1, [.ok (2/5)], none⟩, ⟨2, [.ok (1/5)], none⟩, ⟨3, [.ok (1/2)], none⟩]
      (by norm_num)).2.2))

/-- Opaque external operations used by
`backend/services/face_recognition_service.py`: the `face_recognition`
library calls (locations, landmarks, encodings — an encoding call returns
`none` when the library returns an empty list or raises), the best-effort
`align_face` helper, the PIL rotation and affine transforms, and the numpy
`shape` of an image.  `face_encodings` takes the `num_jitters` argument
last. -/
structure FaceOps (Img Lm Enc Loc : Type) where
  face_locations : Img → List Loc
  face_landmarks : Img → Loc → Option Lm
  face_encodings : Img → Loc → Nat → Option Enc
  align_face : Img → Lm → Img
  pil_rotate : Img → ℚ → Img
  pil_affine : Img → ℚ × ℚ × ℚ × ℚ × ℚ × ℚ → Img
  shape : Img → Nat × Nat

namespace FaceRecognitionService

/-- Model of `FaceRecognitionService.encode_face`: detect a face when none is given,
then encode with `JITTER_COUNT` jitters against the aligned image when
landmarks are available, the raw image otherwise. -/
def encode_face {Img Lm Enc Loc : Type} (ops : FaceOps Img Lm Enc Loc)
    (image_array : Img) (face_location : Option Loc) : Option Enc :=
  match (match face_location with
         | none => (ops.face_locations image_array).head?
         | some loc => some loc) with
  | none => none
  | some loc =>
      match ops.face_landmarks image_array loc with
      | some landmarks =>
          ops.face_encodings (ops.align_face image_array landmarks) loc JITTER_COUNT
      | none => ops.face_encodings image_array loc JITTER_COUNT

/-- Model of `FaceRecognitionService.encode_face_multi_angle`: detect a face when
none is given; fall back to a singleton standard encoding when landmarks
are missing; otherwise align, compute the base encoding with
`MULTI_ANGLE_JITTER` jitters (`None` when it fails), then append the
encodings of the ±5° PIL rotations and the up/down affine tilts, skipping
each variant whose encoding fails. -/
def encode_face_multi_angle {Img Lm Enc Loc : Type} (ops : FaceOps Img Lm Enc Loc)
    (image_array : Img) (face_location : Option Loc) : Option (List Enc) :=
  match (match face_location with
         | none => (ops.face_locations image_array).head?
         | some loc => some loc) with
  | none => none
  | some loc =>
      match ops.face_landmarks image_array loc with
      | none => (encode_face ops image_array (some loc)).map (fun e => [e])
      | some landmarks =>
          let aligned := ops.align_face image_array landmarks
          match ops.face_encodings aligned loc MULTI_ANGLE_JITTER with
          | none => none
          | some base =>
              let height := (ops.shape aligned).1
              let all1 := [base]
              let all2 := all1 ++
                (ops.face_encodings (ops.pil_rotate aligned 5) loc MULTI_ANGLE_JITTER).toList
              let all3 := all2 ++
                (ops.face_encodings (ops.pil_rotate aligned (-5)) loc MULTI_ANGLE_JITTER).toList
              let all4 := all3 ++
                (ops.face_encodings
                  (ops.pil_affine aligned (1, 0, 0, 0, 103/100, -(height : ℚ) * (1/100)))
                  loc MULTI_ANGLE_JITTER).toList
              let all5 := all4 ++
                (ops.face_encodings
                  (ops.pil_affine aligned (1, 0, 0, 0, 97/100, (height : ℚ) * (1/100)))
                  loc MULTI_ANGLE_JITTER).toList
              some all5

end FaceRecognitionService

/-- Opaque external operations used by
`backend/src/services/face_service.py`: face detection and encoding
(an encoding call returns `none` when the library returns an empty list or
raises), numpy array slicing (`crop`), `cv2.getRotationMatrix2D` plus
`cv2.warpAffine` about the crop's own center (`warp_rotate`), `cv2.resize`,
pasting a patch over a copy of the image at a bounding box (`copy_paste`),
and `shape[:2]` as `(rows, cols)`. -/
structure FaceServiceOps (Img Enc : Type) where
  detect_faces : Img → List (Int × Int × Int × Int)
  face_encodings : Img → (Int × Int × Int × Int) → Option Enc
  crop : Img → (Int × Int × Int × Int) → Img
  warp_rotate : Img → Int → Img
  cv2_resize : Img → Int → Int → Img
  copy_paste : Img → (Int × Int × Int × Int) → Img → Img
  shape : Img → Int × Int

/-- Python `int(...)` applied to an exact rational: truncation toward
zero. -/
def py_int (q : ℚ) : Int := Int.tdiv q.num (q.den : Int)

/-- Python `range(start, stop, step)` for a positive step. -/
def python_range (start stop step : Int) : List Int :=
  (List.range ((stop - start + step - 1) / step).toNat).map
    (fun i => start + step * (i : Int))

namespace FaceService

/-- Model of `FaceService.encode_face`: detect faces when no location is given and
encode the first one. -/
def encode_face {Img Enc : Type} (ops : FaceServiceOps Img Enc) (image : Img)
    (face_location : Option (Int × Int × Int × Int)) : Option Enc :=
  match face_location with
  | none =>
      match ops.detect_faces image with
      | [] => none
      | loc :: _ => ops.face_encodings image loc
  | some loc => ops.face_encodings image loc

/-- Body of the rotation loop of
`FaceService.generate_multi_angle_encodings`: skip angle 0, rotate the face
crop about its center, paste it back at the original bounding box, and
append the re-encoding when it succeeds. -/
def rotation_step {Img Enc : Type} (ops : FaceServiceOps Img Enc) (image : Img)
    (face_location : Int × Int × Int × Int) (face_image : Img)
    (acc : List Enc) (angle : Int) : List Enc :=
  if angle = 0 then acc
  else
    let rotated := ops.warp_rotate face_image angle
    let new_image := ops.copy_paste image face_location rotated
    match encode_face ops new_image (some face_location) with
    | some enc => acc ++ [enc]
    | none => acc

/-- Body of the scale loop of `FaceService.generate_multi_angle_encodings`:
resize the face crop, re-center the bounding box at the original location
clipped to the image bounds, shrink the patch if it overflows, paste it,
and append the re-encoding against the new bounding box when it
succeeds. -/
def scale_step {Img Enc : Type} (ops : FaceServiceOps Img Enc) (image : Img)
    (top left height width : Int) (face_image : Img)
    (acc : List Enc) (scale : ℚ) : List Enc :=
  let new_width := py_int ((width : ℚ) * scale)
  let new_height := py_int ((height : ℚ) * scale)
  let scaled := ops.cv2_resize face_image new_width new_height
  let new_top := max 0 (top - py_int (((new_height - height : Int) : ℚ) / 2))
  let new_left := max 0 (left - py_int (((new_width - width : Int) : ℚ) / 2))
  let new_bottom := min (ops.shape image).1 (new_top + new_height)
  let new_right := min (ops.shape image).2 (new_left + new_width)
  let scaled2 :=
    if new_bottom - new_top < (ops.shape scaled).1 ∨
        new_right - new_left < (ops.shape scaled).2 then
      ops.cv2_resize scaled (new_right - new_left) (new_bottom - new_top)
    else scaled
  let new_face_location := (new_top, new_right, new_bottom, new_left)
  let new_image := ops.copy_paste image new_face_location scaled2
  match encode_face ops new_image (some new_face_location) with
  | some enc => acc ++ [enc]
  | none => acc

/-- Model of `FaceService.generate_multi_angle_encodings`: the base encoding (or
`[]` when it fails) followed by the non-failing rotation variants over
`range(-jitter, jitter + 1, 5)` and the scale variants
`[0.95, 0.98, 1.02, 1.05]`. -/
def generate_multi_angle_encodings {Img Enc : Type} (ops : FaceServiceOps Img Enc)
    (multi_angle_jitter : Int) (image : Img)
    (face_location : Int × Int × Int × Int) : List Enc :=
  let top := face_location.1
  let left := face_location.2.2.2
  let face_image := ops.crop image face_location
  match encode_face ops image (some face_location) with
  | none => []
  | some base_encoding =>
      let height := (ops.shape face_image).1
      let width := (ops.shape face_image).2
      let encodings1 := [base_encoding]
      let encodings2 :=
        (python_range (-multi_angle_jitter) (multi_angle_jitter + 1) 5).foldl
          (rotation_step ops image face_location face_image) encodings1
      ([95/100, 98/100, 102/100, 105/100] : List ℚ).foldl
        (scale_step ops image top left height width face_image) encodings2

end FaceService

/-- Each rotation-loop step only ever appends to its accumulator. -/
theorem rotation_fold_extends {Img Enc : Type} (ops : FaceServiceOps Img Enc)
    (image : Img) (face_location : Int × Int × Int × Int) (face_image : Img) :
    ∀ (l : List Int) (acc : List Enc),
      ∃ t, l.foldl (FaceService.rotation_step ops image face_location face_image) acc
          = acc ++ t := by
  have hstep : ∀ (acc : List Enc) (x : Int),
      ∃ t, FaceService.rotation_step ops image face_location face_image acc x
          = acc ++ t := by
    intro acc x
    simp only [FaceService.rotation_step]
    split
    · exact ⟨[], by simp⟩
    · split
      · next e hE => exact ⟨[e], rfl⟩
      · exact ⟨[], by simp⟩
  intro l
  induction l with
  | nil => intro acc; exact ⟨[], by simp⟩
  | cons x xs ih =>
      intro acc
      obtain ⟨t1, ht1⟩ := hstep acc x
      obtain ⟨t2, ht2⟩ :=
        ih (FaceService.rotation_step ops image face_location face_image acc x)
      exact ⟨t1 ++ t2, by rw [List.foldl_cons, ht2, ht1, List.append_assoc]⟩

/-- Each scale-loop step only ever appends to its accumulator. -/
theorem scale_fold_extends {Img Enc : Type} (ops : FaceServiceOps Img Enc)
    (image : Img) (top left height width : Int) (face_image : Img) :
    ∀ (l : List ℚ) (acc : List Enc),
      ∃ t, l.foldl (FaceService.scale_step ops image top left height width face_image) acc
          = acc ++ t := by
  have hstep : ∀ (acc : List Enc) (x : ℚ),
      ∃ t, FaceService.scale_step ops image top left height width face_image acc x
          = acc ++ t := by
    intro acc x
    simp only [FaceService.scale_step]
    split
    · next e hE => exact ⟨[e], rfl⟩
    · exact ⟨[], by simp⟩
  intro l
  induction l with
  | nil => intro acc; exact ⟨[], by simp⟩
  | cons x xs ih =>
      intro acc
      obtain ⟨t1, ht1⟩ := hstep acc x
      obtain ⟨t2, ht2⟩ :=
        ih (FaceService.scale_step ops image top left height width face_image acc x)
      exact ⟨t1 ++ t2, by rw [List.foldl_cons, ht2, ht1, List.append_assoc]⟩

/-- C6.  Whenever the base (unperturbed) encoding succeeds, both
multi-angle encoders return a non-empty sequence whose first element is
that base encoding, whatever the perturbed variants do (in particular when
every variant's encoding fails): for
`FaceRecognitionService.encode_face_multi_angle` with landmarks available,
for its landmark-less fallback, and for
`FaceService.generate_multi_angle_encodings`. -/
theorem c6_multi_angle_base_encoding_first :
    (∀ {Img Lm Enc Loc : Type} (ops : FaceOps Img Lm Enc Loc) (image : Img)
        (loc : Loc) (landmarks : Lm) (base : Enc),
        ops.face_landmarks image loc = some landmarks →
        ops.face_encodings (ops.align_face image landmarks) loc
            FaceRecognitionService.MULTI_ANGLE_JITTER = some base →
        ∃ rest, FaceRecognitionService.encode_face_multi_angle ops image (some loc)
            = some (base :: rest)) ∧
    (∀ {Img Lm Enc Loc : Type} (ops : FaceOps Img Lm Enc Loc) (image : Img)
        (loc : Loc) (e : Enc),
        ops.face_landmarks image loc = none →
        FaceRecognitionService.encode_face ops image (some loc) = some e →
        FaceRecognitionService.encode_face_multi_angle ops image (some loc)
            = some [e]) ∧
    (∀ {Img Enc : Type} (ops : FaceServiceOps Img Enc) (jitter : Int) (image : Img)
        (loc : Int × Int × Int × Int) (base : Enc),
        FaceService.encode_face ops image (some loc) = some base →
        ∃ rest, FaceService.generate_multi_angle_encodings ops jitter image loc
            = base :: rest) := by
  refine ⟨?_, ?_, ?_⟩
  · intro Img Lm Enc Loc ops image loc landmarks base hlm hbase
    simp only [FaceRecognitionService.encode_face_multi_angle, hlm, hbase]
    exact ⟨_, rfl⟩
  · intro Img Lm Enc Loc ops image loc e hlm henc
    simp only [FaceRecognitionService.encode_face_multi_angle, hlm, henc]
    rfl
  · intro Img Enc ops jitter image loc base hbase
    simp only [FaceService.generate_multi_angle_encodings, hbase]
    obtain ⟨t1, ht1⟩ := rotation_fold_extends ops image loc (ops.crop image loc)
      (python_range (-jitter) (jitter + 1) 5) [base]
    obtain ⟨t2, ht2⟩ := scale_fold_extends ops image loc.1 loc.2.2.2
      (ops.shape (ops.crop image loc)).1 (ops.shape (ops.crop image loc)).2
      (ops.crop image loc) ([95/100, 98/100, 102/100, 105/100] : List ℚ)
      ((python_range (-jitter) (jitter + 1) 5).foldl
        (FaceService.rotation_step ops image loc (ops.crop image loc)) [base])
    refine ⟨t1 ++ t2, ?_⟩
    rw [ht2, ht1]
    simp

/-- Concrete external operations for the C6 witness: every image other
than the base aligned image (coded `0`) fails to encode, so every perturbed
variant fails. -/
def test_face_ops : FaceOps Nat Nat Nat Nat where
  face_locations := fun _ => [0]
  face_landmarks := fun _ _ => some 0
  face_encodings := fun img _ _ => if img = 0 then some 7 else none
  align_face := fun _ _ => 0
  pil_rotate := fun _ _ => 1
  pil_affine := fun _ _ => 1
  shape := fun _ => (2, 2)

/-- Concrete external operations for the landmark-less fallback of the C6
witness. -/
def test_face_ops_nolm : FaceOps Nat Nat Nat Nat where
  face_locations := fun _ => [0]
  face_landmarks := fun _ _ => none
  face_encodings := fun img _ _ => if img = 0 then some 7 else none
  align_face := fun _ _ => 0
  pil_rotate := fun _ _ => 1
  pil_affine := fun _ _ => 1
  shape := fun _ => (2, 2)

/-- Concrete external operations for the `FaceService` part of the C6
witness: only the original image (coded `0`) encodes, every pasted variant
image (coded `6`) fails. -/
def test_face_service_ops : FaceServiceOps Nat Nat where
  detect_faces := fun _ => [(0, 2, 2, 0)]
  face_encodings := fun img _ => if img = 0 then some 7 else none
  crop := fun _ _ => 3
  warp_rotate := fun _ _ => 4
  cv2_resize := fun _ _ _ => 5
  copy_paste := fun _ _ _ => 6
  shape := fun _ => (2, 2)

/-- Witness for C6 at concrete operations where every perturbed variant
fails to encode: the result still starts with the base encoding `7`. -/
theorem c6_multi_angle_base_encoding_first_witness :
    (∃ rest, FaceRecognitionService.encode_face_multi_angle test_face_ops 0 (some 0)
        = some (7 :: rest)) ∧
    FaceRecognitionService.encode_face_multi_angle test_face_ops_nolm 0 (some 0)
        = some [7] ∧
    (∃ rest, FaceService.generate_multi_angle_encodings test_face_service_ops 10 0
        (0, 2, 2, 0) = 7 :: rest) :=
  ⟨c6_multi_angle_base_encoding_first.1 test_face_ops 0 0 0 7 (by decide) (by decide),
   c6_multi_angle_base_encoding_first.2.1 test_face_ops_nolm 0 0 7 (by decide) (by decide),
   c6_multi_angle_base_encoding_first.2.2 test_face_service_ops 10 0 (0, 2, 2, 0) 7
     (by decide)⟩

namespace ApiRegistration

/-- Pose gate of `register_face` in `backend/src/api/registration.py`:
the endpoint returns a 400 pose error (`true` here) exactly when the angle
check is not bypassed, the face analysis carries a pose, and some absolute
angle exceeds the 15° threshold. -/
def pose_gate_rejects (bypass_angle_check : Bool) (pose : Option Pose) : Bool :=
  match pose with
  | none => false
  | some p =>
      !bypass_angle_check && decide (|p.yaw| > 15 ∨ |p.pitch| > 15 ∨ |p.roll| > 15)

end ApiRegistration

namespace RoutesRegistration

/-- Pose gate shared verbatim by `register_face` and `register_with_file`
in `backend/routes/registration.py`: when the analysis carries a pose and
`|yaw| > 60` or `|pitch| > 45` or `|roll| > 30`, the endpoint returns a 400
pose error (`true` here) unless `bypass_angle_check` is set. -/
def pose_gate_rejects (bypass_angle_check : Bool) (pose : Option Pose) : Bool :=
  match pose with
  | none => false
  | some p =>
      decide (|p.yaw| > 60 ∨ |p.pitch| > 45 ∨ |p.roll| > 30) && !bypass_angle_check

end RoutesRegistration

/-- C8 counterexample.  The cited endpoints in
`backend/routes/registration.py` use the relaxed 60°/45°/30° thresholds, so
a detected face with `yaw = 40°` and `bypass_angle_check = false` is NOT
rejected there, contradicting the claim that it must be rejected with a 400
pose error. -/
theorem c8_routes_gate_accepts_yaw_40 :
    RoutesRegistration.pose_gate_rejects false (some ⟨40, 0, 0⟩) = false := by
  simp only [RoutesRegistration.pose_gate_rejects, Bool.not_false, Bool.and_true]
  apply decide_eq_false
  push_neg
  norm_num

/-- C8 (amended).  The pose gate of the cited `backend/routes/registration.py`
endpoints rejects only above 60° of yaw (45° pitch, 30° roll): `yaw = 40°`
passes regardless of `bypass_angle_check`, while `yaw = 70°` is rejected with
a 400 pose error exactly when `bypass_angle_check = false`.  The claim as
stated holds of the other registration variant,
`backend/src/api/registration.py`, whose threshold is 15°: there `yaw = 40°`
with `bypass_angle_check = false` is rejected and with
`bypass_angle_check = true` is not. -/
theorem c8_amended_pose_gate_thresholds :
    ApiRegistration.pose_gate_rejects false (some ⟨40, 0, 0⟩) = true ∧
    ApiRegistration.pose_gate_rejects true (some ⟨40, 0, 0⟩) = false ∧
    RoutesRegistration.pose_gate_rejects false (some ⟨40, 0, 0⟩) = false ∧
    RoutesRegistration.pose_gate_rejects true (some ⟨40, 0, 0⟩) = false ∧
    RoutesRegistration.pose_gate_rejects false (some ⟨70, 0, 0⟩) = true ∧
    RoutesRegistration.pose_gate_rejects true (some ⟨70, 0, 0⟩) = false := by
  refine ⟨?_, ?_, ?_, ?_, ?_, ?_⟩ <;>
    simp only [ApiRegistration.pose_gate_rejects, RoutesRegistration.pose_gate_rejects,
      Bool.not_false, Bool.not_true, Bool.and_true, Bool.and_false, Bool.true_and,
      Bool.false_and]
  · apply decide_eq_true
    left
    norm_num
  · apply decide_eq_false
    push_neg
    norm_num
  · apply decide_eq_true
    left
    norm_num
